import Mathlib

/-!
A verification development for the KK_exec tool-gateway and execution-engine
core: a shallow embedding of `src/mcp/server_registry.py`,
`src/mcp/credential_injector.py`, `src/mcp/transports.py`,
`src/services/mcp_gateway.py` and `src/core/execution_engine.py`, together
with theorems settling the specified behavioural claims.

Python dictionaries are embedded as association lists (`List (String × _)`,
first match wins, keys unique in all catalogues we build), Python `None` as
`Option`, and exceptions as `Except` or explicit outcome types.  Payloads
whose content no claim inspects (LangGraph message state, serialized chunks)
are abstracted by a type parameter `α`.
-/

namespace KKExec

/-- Association-list lookup, embedding Python `dict.get` (dictionary keys are
unique in every catalogue built here, so first-match-wins agrees with `dict`). -/
def alookup (pairs : List (String × β)) (key : String) : Option β :=
  match pairs with
  | [] => none
  | (k, v) :: rest => if k = key then some v else alookup rest key

/-- Embedding of Python `key in dict`. -/
def hasKey (pairs : List (String × β)) (key : String) : Bool :=
  (alookup pairs key).isSome

/-! ## Server registry (`src/mcp/server_registry.py`) -/

/-- `MCPServerConfig` dataclass (`server_registry.py`).  The `transport`
field keeps the source's string tag (`"stdio"`, `"streamable_http"`, `"sse"`). -/
structure MCPServerConfig where
  id : String
  name : String
  transport : String
  credential_type : Option String := none
  tools : List String := []
  url : Option String := none
  command : Option String := none
  args : Option (List String) := none
  env : Option (List (String × String)) := none
  description : Option String := none
  icon : Option String := none
  version : String := "1.0.0"
  enabled : Bool := true
deriving DecidableEq, Repr

/-- The `"slack"` entry of `MCPServerRegistry._get_default_servers`. -/
def slackConfig : MCPServerConfig :=
  { id := "slack", name := "Slack MCP",
    description := some "Slack messaging and workspace integration",
    transport := "streamable_http", url := some "https://mcp.slack.com/v1",
    credential_type := some "slack_oauth",
    tools := ["send_message", "list_channels", "search_messages",
              "get_channel_info", "list_users"],
    icon := some "slack" }

/-- The `"github"` entry of `MCPServerRegistry._get_default_servers`. -/
def githubConfig : MCPServerConfig :=
  { id := "github", name := "GitHub MCP",
    description := some "GitHub repository and issue management",
    transport := "streamable_http", url := some "https://gitmcp.io/api",
    credential_type := some "github_token",
    tools := ["search_repos", "create_issue", "list_issues", "create_pr",
              "list_prs", "get_file_contents"],
    icon := some "github" }

/-- The `"filesystem"` entry of `MCPServerRegistry._get_default_servers`
(the only default server requiring no credential). -/
def filesystemConfig : MCPServerConfig :=
  { id := "filesystem", name := "Filesystem MCP",
    description := some "Local filesystem operations",
    transport := "stdio", command := some "npx",
    args := some ["-y", "@anthropic/mcp-filesystem"],
    credential_type := none,
    tools := ["read_file", "write_file", "list_directory",
              "create_directory", "delete_file"],
    icon := some "folder" }

/-- The `"google_drive"` entry of `MCPServerRegistry._get_default_servers`
(the only default server registered with `enabled=False`). -/
def googleDriveConfig : MCPServerConfig :=
  { id := "google_drive", name := "Google Drive MCP",
    description := some "Google Drive file management",
    transport := "streamable_http",
    url := some "https://mcp.googleapis.com/drive/v1",
    credential_type := some "google_oauth",
    tools := ["list_files", "get_file", "create_file", "update_file",
              "delete_file", "share_file"],
    icon := some "google-drive",
    enabled := false }

/-- The `"notion"` entry of `MCPServerRegistry._get_default_servers`. -/
def notionConfig : MCPServerConfig :=
  { id := "notion", name := "Notion MCP",
    description := some "Notion workspace management via official MCP server",
    transport := "stdio", command := some "npx",
    args := some ["-y", "@notionhq/notion-mcp-server"],
    credential_type := some "notion_oauth",
    tools := ["v1/search", "v1/pages", "v1/pages/[page_id]",
              "v1/blocks/[block_id]/children", "v1/comments",
              "v1/databases/[database_id]/query"],
    icon := some "notion",
    enabled := true }

/-- The five entries of `MCPServerRegistry._get_default_servers`. -/
def default_servers : List (String × MCPServerConfig) :=
  [ ("slack", slackConfig),
    ("github", githubConfig),
    ("filesystem", filesystemConfig),
    ("google_drive", googleDriveConfig),
    ("notion", notionConfig) ]

/-- `MCPServerRegistry`: the in-memory server catalogue (`self.servers`). -/
structure MCPServerRegistry where
  servers : List (String × MCPServerConfig)

/-- The registry as built by `MCPServerRegistry.__init__`. -/
def defaultRegistry : MCPServerRegistry := ⟨default_servers⟩

/-- `MCPServerRegistry.get`: returns the config only when present and enabled
(`if server and server.enabled`; a dataclass instance is always truthy). -/
def MCPServerRegistry.get (r : MCPServerRegistry) (server_id : String) :
    Option MCPServerConfig :=
  match alookup r.servers server_id with
  | some server => if server.enabled then some server else none
  | none => none

/-- Whether a server's credential requirement is met by the given credential
types: the branch structure of the loop body of
`MCPServerRegistry.list_available` (and, identically, of
`MCPGateway.get_servers_available_to_user`). -/
def credentialOk (available_credentials : List String) (s : MCPServerConfig) : Bool :=
  match s.credential_type with
  | none => true
  | some ct => available_credentials.contains ct

/-- `MCPServerRegistry.list_available`: iterates `self.servers.values()`,
skips disabled servers, keeps those whose credential requirement is met. -/
def MCPServerRegistry.list_available (r : MCPServerRegistry)
    (available_credentials : List String) : List MCPServerConfig :=
  (r.servers.map Prod.snd).filter
    (fun s => s.enabled && credentialOk available_credentials s)

/-! ## Credential injector (`src/mcp/credential_injector.py`) -/

/-- `CredentialDecrypted` (`src/models/credential.py`), restricted to the two
fields the injector and gateway read; `data` values are embedded as strings. -/
structure CredentialDecrypted where
  credential_type : String
  data : List (String × String)
deriving DecidableEq, Repr

/-- `InjectedCredentials` dataclass. -/
structure InjectedCredentials where
  headers : List (String × String)
  params : List (String × String)
  env : List (String × String)
deriving DecidableEq, Repr

/-- One entry of `CredentialInjector.CREDENTIAL_STRATEGIES` (a Python dict
with a `method`, a `token_field`, and optional method-specific names). -/
structure InjStrategy where
  method : String
  token_field : String
  header_name : Option String := none
  param_name : Option String := none
  env_name : Option String := none
deriving DecidableEq, Repr

/-- `CredentialInjector.CREDENTIAL_STRATEGIES`. -/
def CREDENTIAL_STRATEGIES : List (String × InjStrategy) :=
  [ ("slack_oauth", { method := "bearer", token_field := "access_token" }),
    ("github_token", { method := "bearer", token_field := "token" }),
    ("openai_api_key", { method := "bearer", token_field := "api_key" }),
    ("anthropic_api_key",
      { method := "header", header_name := some "x-api-key",
        token_field := "api_key" }),
    ("google_oauth", { method := "bearer", token_field := "access_token" }),
    ("notion_token", { method := "bearer", token_field := "token" }),
    ("weather_api_key",
      { method := "query", param_name := some "appid",
        token_field := "api_key" }),
    ("generic_api_key",
      { method := "header", header_name := some "X-API-Key",
        token_field := "api_key" }) ]

/-- The fallback strategy used by `prepare` when the credential's type has no
table entry: bearer-header injection reading the field literally named
`"token"`. -/
def defaultStrategy : InjStrategy := { method := "bearer", token_field := "token" }

/-- The strategy `prepare` applies for a credential type:
`CREDENTIAL_STRATEGIES.get(type)` with the bearer/"token" default. -/
def strategyFor (credential_type : String) : InjStrategy :=
  (alookup CREDENTIAL_STRATEGIES credential_type).getD defaultStrategy

/-- The `CredentialInjectionError` cases `prepare` raises. -/
inductive CredentialInjectionErr where
  | credentialRequired (server_id : String) (credential_type : String)
  | missingField (token_field : String)
deriving DecidableEq, Repr

/-- `CredentialInjector.prepare`.  Faithful points: a server requiring no
credential returns an empty `InjectedCredentials` whatever is passed; a
required-but-missing credential raises; the strategy is chosen from the
credential's own type with the bearer/"token" fallback; `if not token` treats
an absent field and an empty-string field alike as missing; an unmatched
`method` falls through and returns all-empty material. -/
def prepare (server_config : MCPServerConfig)
    (credential : Option CredentialDecrypted) :
    Except CredentialInjectionErr InjectedCredentials :=
  match server_config.credential_type with
  | none => .ok ⟨[], [], []⟩
  | some required_type =>
    match credential with
    | none => .error (.credentialRequired server_config.id required_type)
    | some cred =>
      let strategy := strategyFor cred.credential_type
      match alookup cred.data strategy.token_field with
      | none => .error (.missingField strategy.token_field)
      | some token =>
        if token = "" then .error (.missingField strategy.token_field)
        else if strategy.method = "bearer" then
          .ok ⟨[("Authorization", "Bearer " ++ token)], [], []⟩
        else if strategy.method = "header" then
          .ok ⟨[(strategy.header_name.getD "X-API-Key", token)], [], []⟩
        else if strategy.method = "query" then
          .ok ⟨[], [(strategy.param_name.getD "api_key", token)], []⟩
        else if strategy.method = "env" then
          .ok ⟨[], [], [(strategy.env_name.getD "API_KEY", token)]⟩
        else .ok ⟨[], [], []⟩

/-! ## Gateway (`src/services/mcp_gateway.py`) -/

/-- `MCPGateway`: holds its own `MCPServerRegistry` (`self._registry`). -/
structure MCPGateway where
  registry : MCPServerRegistry

/-- Outcome of the server-resolution prefix of `MCPGateway.connection`
(lines 216–232): the `config = self._registry.servers.get(server_id)` lookup
— note: the raw `servers` dict, not `MCPServerRegistry.get` — followed by the
`MCPServerNotFoundError` raise for a missing id and the dispatch on
`config.transport`.  Everything after this point is transport I/O and can no
longer raise `MCPServerNotFoundError`. -/
inductive ResolveOutcome where
  | serverNotFound (server_id : String)
  | proceed (config : MCPServerConfig)
  | unsupportedTransport (transport : String)
deriving DecidableEq, Repr

/-- The resolution/dispatch prefix of `MCPGateway.connection`. -/
def MCPGateway.connection_resolve (g : MCPGateway) (server_id : String) :
    ResolveOutcome :=
  match alookup g.registry.servers server_id with
  | none => .serverNotFound server_id
  | some config =>
    if config.transport = "stdio" then .proceed config
    else if config.transport = "streamable_http" then .proceed config
    else if config.transport = "sse" then .proceed config
    else .unsupportedTransport config.transport

/-- Headers applied by `MCPGateway._http_connection` to the HTTP client:
`access_token` ↦ `Authorization: Bearer`, else `token` ↦ `Authorization:
Bearer`, else `api_key` ↦ `X-API-Key`.  The gateway receives the raw
credential-data dict (`credential.data`); the credential's type never reaches
this code. -/
def httpConnectionHeaders (credentials : Option (List (String × String))) :
    List (String × String) :=
  match credentials with
  | none => []
  | some creds =>
    match alookup creds "access_token" with
    | some t => [("Authorization", "Bearer " ++ t)]
    | none =>
      match alookup creds "token" with
      | some t => [("Authorization", "Bearer " ++ t)]
      | none =>
        match alookup creds "api_key" with
        | some k => [("X-API-Key", k)]
        | none => []

/-- Headers applied by `MCPGateway._sse_connection`: as the HTTP variant but
with no `api_key` branch. -/
def sseConnectionHeaders (credentials : Option (List (String × String))) :
    List (String × String) :=
  match credentials with
  | none => []
  | some creds =>
    match alookup creds "access_token" with
    | some t => [("Authorization", "Bearer " ++ t)]
    | none =>
      match alookup creds "token" with
      | some t => [("Authorization", "Bearer " ++ t)]
      | none => []

/-- Environment-variable additions applied by `MCPGateway._stdio_connection`
on top of `os.environ` and `config.env`: the `notion`-specific
`NOTION_TOKEN`, else `token` ↦ `MCP_TOKEN`, else `api_key` ↦ `MCP_API_KEY`.
`if credentials:` makes an empty dict behave like no credentials. -/
def stdioConnectionEnvAdditions (config_id : String)
    (credentials : Option (List (String × String))) : List (String × String) :=
  match credentials with
  | none => []
  | some creds =>
    if creds.isEmpty then []
    else if config_id = "notion" && hasKey creds "access_token" then
      [("NOTION_TOKEN", (alookup creds "access_token").getD "")]
    else if hasKey creds "token" then
      [("MCP_TOKEN", (alookup creds "token").getD "")]
    else if hasKey creds "api_key" then
      [("MCP_API_KEY", (alookup creds "api_key").getD "")]
    else []

/-- `MCPGateway.get_servers_available_to_user`: iterates
`self._registry.servers.values()` keeping servers whose credential
requirement is met — with no check of the `enabled` flag. -/
def MCPGateway.get_servers_available_to_user (g : MCPGateway)
    (available_credentials : List String) : List MCPServerConfig :=
  (g.registry.servers.map Prod.snd).filter (credentialOk available_credentials)

/-! ## Transports (`src/mcp/transports.py`)

The transport classes hold handles into external libraries (an asyncio
subprocess, an httpx client).  Those handles are embedded as small state
records whose operations follow the libraries' documented semantics:
`Popen.terminate`/`send_signal` does nothing when the process has already
completed, and `httpx.AsyncClient.aclose` on an already-closed client is a
no-op.  Under that model every transport method is total. -/

/-- State of the spawned subprocess handle (`self._process`). -/
structure ProcHandle where
  running : Bool
deriving DecidableEq, Repr

/-- `process.terminate()` followed by `await process.wait()`: stops the
process if running, does nothing if it has already completed. -/
def ProcHandle.terminateWait (_p : ProcHandle) : ProcHandle :=
  { running := false }

/-- State of an `httpx.AsyncClient` handle (`self._client`). -/
structure ClientHandle where
  closed : Bool
deriving DecidableEq, Repr

/-- `await client.aclose()` (idempotent per httpx). -/
def ClientHandle.aclose (_c : ClientHandle) : ClientHandle :=
  { closed := true }

/-- `StdioTransport` state. -/
structure StdioTransport where
  command : String
  args : List String
  env : Option (List (String × String))
  timeout : Nat
  process : Option ProcHandle
  connected : Bool
deriving DecidableEq, Repr

/-- `StdioTransport.disconnect`: `if self._process:` terminate, wait, clear
the connected flag; `self._process` itself is never reset to `None`. -/
def StdioTransport.disconnect (t : StdioTransport) : StdioTransport :=
  match t.process with
  | none => t
  | some p => { t with process := some p.terminateWait, connected := false }

/-- `StreamableHttpTransport` state. -/
structure StreamableHttpTransport where
  url : String
  headers : List (String × String)
  timeout : Nat
  client : Option ClientHandle
  connected : Bool
deriving DecidableEq, Repr

/-- `StreamableHttpTransport.disconnect`: `if self._client:` close it and
clear the connected flag; `self._client` is never reset to `None`. -/
def StreamableHttpTransport.disconnect (t : StreamableHttpTransport) :
    StreamableHttpTransport :=
  match t.client with
  | none => t
  | some c => { t with client := some c.aclose, connected := false }

/-- `SSETransport` state. -/
structure SSETransport where
  url : String
  headers : List (String × String)
  timeout : Nat
  client : Option ClientHandle
  connected : Bool
deriving DecidableEq, Repr

/-- `SSETransport.disconnect`: identical shape to the HTTP variant. -/
def SSETransport.disconnect (t : SSETransport) : SSETransport :=
  match t.client with
  | none => t
  | some c => { t with client := some c.aclose, connected := false }

/-! ## Execution engine (`src/core/execution_engine.py`)

`WorkflowExecutionEngine.execute` drives `compiled.astream(...,
stream_mode=["updates", "values"])`.  LangGraph is an external collaborator:
its chunk stream is an input of the embedding — a list of chunks optionally
followed by a raised exception (an exception raised partway through the
iteration is the same thing as a shorter chunk list plus that exception).
With several stream modes each chunk arrives as a `(mode, data)` tuple;
earlier LangGraph versions yield bare chunks, kept as the `plain` case
(`execute`'s `isinstance(chunk, tuple)` branch).  Chunk payloads and graph
state are abstracted by `α` (their content — `_serialize_chunk`,
`_extract_output` — is read by no claim). -/

/-- One chunk yielded by `compiled.astream`. -/
inductive StreamChunk (α : Type) where
  | tagged (mode : String) (data : α)
  | plain (data : α)
deriving DecidableEq, Repr

/-- An exception raised by the stream (model call, tool call, graph
machinery) or by the fallback `ainvoke`: either an `ExecutionError` subclass
(carrying its `error_code`) or any other exception (carrying its type name
and message). -/
inductive RaisedExn where
  | execErrorExn (error_code : String) (message : String)
  | generic (error_type : String) (message : String)
deriving DecidableEq, Repr

/-- The events `execute` yields, restricted to the fields the claims read:
`type`, `step_number`, and for `complete` the `steps_completed` entry of its
`data` plus the (abstracted) output. -/
inductive EngineEvent (α : Type) where
  | start
  | step (step_number : Nat) (data : α)
  | complete (step_number : Nat) (steps_completed : Nat) (output : Option α)
  | error (step_number : Nat) (error_type : String) (message : String)
deriving DecidableEq, Repr

/-- How one call of `execute` ends for its caller: the generator finishing
normally, or an `ExecutionError` (the only exception type `execute` lets
escape on these paths) with its `error_code` and message. -/
inductive EngineOutcome where
  | ok
  | execError (error_code : String) (message : String)
deriving DecidableEq, Repr

/-- How the streaming `for` loop ends: the stream exhausted, or the
`ExecutionError("MAX_STEPS_EXCEEDED")` raise. -/
inductive LoopExit (α : Type) where
  | finished (step_count : Nat) (final_state : Option α)
  | maxSteps (step_count : Nat)
deriving DecidableEq, Repr

/-- The message of the max-steps `ExecutionError`. -/
def maxStepsMessage (max_steps : Nat) : String :=
  "Execution exceeded maximum steps (" ++ toString max_steps ++ ")"

/-- The body of `async for chunk in compiled.astream(...)`: per chunk,
increment `step_count`; raise once it exceeds `max_steps`; a
`("values", data)` chunk is saved as `final_state`, a `("updates", data)`
chunk (or a bare chunk) yields a `step` event numbered `step_count`; other
modes do nothing.  Returns the yielded events and the loop exit. -/
def streamLoop (max_steps : Nat) :
    List (StreamChunk α) → Nat → Option α → List (EngineEvent α) × LoopExit α
  | [], step_count, final_state => ([], .finished step_count final_state)
  | chunk :: rest, step_count, final_state =>
    if step_count + 1 > max_steps then ([], .maxSteps (step_count + 1))
    else
      match chunk with
      | .tagged mode data =>
        if mode = "values" then
          streamLoop max_steps rest (step_count + 1) (some data)
        else if mode = "updates" then
          let r := streamLoop max_steps rest (step_count + 1) final_state
          (.step (step_count + 1) data :: r.1, r.2)
        else
          streamLoop max_steps rest (step_count + 1) final_state
      | .plain data =>
        let r := streamLoop max_steps rest (step_count + 1) final_state
        (.step (step_count + 1) data :: r.1, r.2)

/-- `WorkflowExecutionEngine.execute` with `stream=True`: the `start` event,
the streaming loop, the `ainvoke` fallback when no `values` chunk was seen,
the `complete` event, and the two `except` clauses — `except ExecutionError:
raise` re-raises with no event, `except Exception` yields an `error` event
and wraps into `ExecutionError(str(e), "EXECUTION_FAILED")`.
`stream_exn` is the exception, if any, the chunk source raises after its
listed chunks; `ainvoke` is the result of the fallback `compiled.ainvoke`. -/
def executeStream (max_steps : Nat) (chunks : List (StreamChunk α))
    (stream_exn : Option RaisedExn) (ainvoke : Except RaisedExn α) :
    List (EngineEvent α) × EngineOutcome :=
  match streamLoop max_steps chunks 0 none with
  | (evs, .maxSteps _) =>
    (.start :: evs, .execError "MAX_STEPS_EXCEEDED" (maxStepsMessage max_steps))
  | (evs, .finished step_count final_state) =>
    match stream_exn with
    | some (.execErrorExn code msg) => (.start :: evs, .execError code msg)
    | some (.generic ty msg) =>
      (.start :: (evs ++ [.error step_count ty msg]),
        .execError "EXECUTION_FAILED" msg)
    | none =>
      match final_state with
      | some st =>
        (.start :: (evs ++ [.complete step_count step_count (some st)]), .ok)
      | none =>
        match ainvoke with
        | .ok st =>
          (.start :: (evs ++ [.complete step_count step_count (some st)]), .ok)
        | .error (.execErrorExn code msg) => (.start :: evs, .execError code msg)
        | .error (.generic ty msg) =>
          (.start :: (evs ++ [.error step_count ty msg]),
            .execError "EXECUTION_FAILED" msg)

/-- `WorkflowExecutionEngine.execute` with `stream=False`: one `ainvoke`,
`step_count = 1`, then the `complete` event; the same `except` clauses
otherwise (at a raise the step counter is still 0). -/
def executeNoStream (ainvoke : Except RaisedExn α) :
    List (EngineEvent α) × EngineOutcome :=
  match ainvoke with
  | .ok st => ([.start, .complete 1 1 (some st)], .ok)
  | .error (.execErrorExn code msg) => ([.start], .execError code msg)
  | .error (.generic ty msg) =>
    ([.start, .error 0 ty msg], .execError "EXECUTION_FAILED" msg)

/-- Event classifiers, matching on the event's `type` string. -/
def isStepEvent : EngineEvent α → Bool
  | .step _ _ => true
  | _ => false

/-- A terminal event: `complete` or `error`. -/
def isTerminalEvent : EngineEvent α → Bool
  | .complete _ _ _ => true
  | .error _ _ _ => true
  | _ => false

/-- An `error` event. -/
def isErrorEvent : EngineEvent α → Bool
  | .error _ _ _ => true
  | _ => false

/-- A `complete` event. -/
def isCompleteEvent : EngineEvent α → Bool
  | .complete _ _ _ => true
  | _ => false

/-- The `step_number` values carried by the `step` events of an event list,
in emission order. -/
def stepNumbers : List (EngineEvent α) → List Nat
  | [] => []
  | .step n _ :: rest => n :: stepNumbers rest
  | _ :: rest => stepNumbers rest

/-- Chunk stream of a one-turn, no-tool-call run of the graph built by
`_build_state_graph`, under LangGraph's streaming with modes
`["updates", "values"]`: the values mode first emits the input state as a
leading `values` chunk, then the single `agent` super-step (after which
`should_continue` returns `END` since the `AIMessage` has no `tool_calls`)
yields one `updates` chunk and one `values` chunk with the final state. -/
def noToolChunks (input_state agent_update final_state : α) :
    List (StreamChunk α) :=
  [.tagged "values" input_state, .tagged "updates" agent_update,
   .tagged "values" final_state]

/-! ### Lemmas about the streaming loop -/

theorem streamLoop_forall_step (ms : Nat) :
    ∀ (chunks : List (StreamChunk α)) (sc : Nat) (fs : Option α),
      ∀ e ∈ (streamLoop ms chunks sc fs).1, isStepEvent e = true := by
  intro chunks
  induction chunks with
  | nil =>
    intro sc fs e he
    simp [streamLoop] at he
  | cons c rest ih =>
    intro sc fs e he
    cases c with
    | tagged mode d =>
      simp only [streamLoop] at he
      split at he
      · simp at he
      · split at he
        · exact ih _ _ e he
        · split at he
          · rcases List.mem_cons.mp he with rfl | h
            · rfl
            · exact ih _ _ e h
          · exact ih _ _ e he
    | plain d =>
      simp only [streamLoop] at he
      split at he
      · simp at he
      · rcases List.mem_cons.mp he with rfl | h
        · rfl
        · exact ih _ _ e h

theorem streamLoop_nums_bounds (ms : Nat) :
    ∀ (chunks : List (StreamChunk α)) (sc : Nat) (fs : Option α),
      ∀ n ∈ stepNumbers (streamLoop ms chunks sc fs).1, sc < n ∧ n ≤ ms := by
  intro chunks
  induction chunks with
  | nil =>
    intro sc fs n hn
    simp [streamLoop, stepNumbers] at hn
  | cons c rest ih =>
    intro sc fs n hn
    cases c with
    | tagged mode d =>
      simp only [streamLoop] at hn
      split at hn
      · simp [stepNumbers] at hn
      · rename_i hle
        split at hn
        · rcases ih (sc + 1) (some d) n hn with ⟨h1, h2⟩
          exact ⟨by omega, h2⟩
        · split at hn
          · simp only [stepNumbers] at hn
            rcases List.mem_cons.mp hn with rfl | h
            · exact ⟨by omega, by omega⟩
            · rcases ih (sc + 1) fs n h with ⟨h1, h2⟩
              exact ⟨by omega, h2⟩
          · rcases ih (sc + 1) fs n hn with ⟨h1, h2⟩
            exact ⟨by omega, h2⟩
    | plain d =>
      simp only [streamLoop] at hn
      split at hn
      · simp [stepNumbers] at hn
      · rename_i hle
        simp only [stepNumbers] at hn
        rcases List.mem_cons.mp hn with rfl | h
        · exact ⟨by omega, by omega⟩
        · rcases ih (sc + 1) fs n h with ⟨h1, h2⟩
          exact ⟨by omega, h2⟩

theorem streamLoop_nums_pairwise (ms : Nat) :
    ∀ (chunks : List (StreamChunk α)) (sc : Nat) (fs : Option α),
      List.Pairwise (· < ·) (stepNumbers (streamLoop ms chunks sc fs).1) := by
  intro chunks
  induction chunks with
  | nil =>
    intro sc fs
    simp [streamLoop, stepNumbers]
  | cons c rest ih =>
    intro sc fs
    cases c with
    | tagged mode d =>
      simp only [streamLoop]
      split
      · simp [stepNumbers]
      · split
        · exact ih _ _
        · split
          · simp only [stepNumbers]
            refine List.Pairwise.cons ?_ (ih _ _)
            intro n hn
            exact (streamLoop_nums_bounds ms rest (sc + 1) fs n hn).1
          · exact ih _ _
    | plain d =>
      simp only [streamLoop]
      split
      · simp [stepNumbers]
      · simp only [stepNumbers]
        refine List.Pairwise.cons ?_ (ih _ _)
        intro n hn
        exact (streamLoop_nums_bounds ms rest (sc + 1) fs n hn).1

theorem streamLoop_nums_length (ms : Nat) :
    ∀ (chunks : List (StreamChunk α)) (sc : Nat) (fs : Option α),
      (stepNumbers (streamLoop ms chunks sc fs).1).length ≤ ms - sc := by
  intro chunks
  induction chunks with
  | nil =>
    intro sc fs
    simp [streamLoop, stepNumbers]
  | cons c rest ih =>
    intro sc fs
    cases c with
    | tagged mode d =>
      simp only [streamLoop]
      split
      · simp [stepNumbers]
      · rename_i hle
        split
        · have := ih (sc + 1) (some d)
          omega
        · split
          · simp only [stepNumbers, List.length_cons]
            have := ih (sc + 1) fs
            omega
          · have := ih (sc + 1) fs
            omega
    | plain d =>
      simp only [streamLoop]
      split
      · simp [stepNumbers]
      · rename_i hle
        simp only [stepNumbers, List.length_cons]
        have := ih (sc + 1) fs
        omega

theorem streamLoop_exit_finished (ms : Nat) :
    ∀ (chunks : List (StreamChunk α)) (sc : Nat) (fs : Option α),
      sc + chunks.length ≤ ms →
      ∃ fs', (streamLoop ms chunks sc fs).2 = .finished (sc + chunks.length) fs' := by
  intro chunks
  induction chunks with
  | nil =>
    intro sc fs _
    exact ⟨fs, by simp [streamLoop]⟩
  | cons c rest ih =>
    intro sc fs hlen
    simp only [List.length_cons] at hlen
    cases c with
    | tagged mode d =>
      simp only [streamLoop]
      rw [if_neg (by omega)]
      split
      · rcases ih (sc + 1) (some d) (by omega) with ⟨fs', h⟩
        exact ⟨fs', by rw [h]; simp only [List.length_cons]; congr 1; omega⟩
      · split
        · rcases ih (sc + 1) fs (by omega) with ⟨fs', h⟩
          exact ⟨fs', by simp only [h]; simp only [List.length_cons]; congr 1; omega⟩
        · rcases ih (sc + 1) fs (by omega) with ⟨fs', h⟩
          exact ⟨fs', by rw [h]; simp only [List.length_cons]; congr 1; omega⟩
    | plain d =>
      simp only [streamLoop]
      rw [if_neg (by omega)]
      rcases ih (sc + 1) fs (by omega) with ⟨fs', h⟩
      exact ⟨fs', by simp only [h]; simp only [List.length_cons]; congr 1; omega⟩

theorem streamLoop_exit_maxSteps (ms : Nat) :
    ∀ (chunks : List (StreamChunk α)) (sc : Nat) (fs : Option α),
      sc ≤ ms → ms < sc + chunks.length →
      ∃ k, (streamLoop ms chunks sc fs).2 = .maxSteps k := by
  intro chunks
  induction chunks with
  | nil =>
    intro sc fs hsc hlen
    simp only [List.length_nil] at hlen
    omega
  | cons c rest ih =>
    intro sc fs hsc hlen
    have hlen' : ms < sc + rest.length + 1 := by
      simp only [List.length_cons] at hlen
      omega
    by_cases hstep : sc + 1 > ms
    · cases c with
      | tagged mode d =>
        exact ⟨sc + 1, by simp only [streamLoop]; rw [if_pos hstep]⟩
      | plain d =>
        exact ⟨sc + 1, by simp only [streamLoop]; rw [if_pos hstep]⟩
    · cases c with
      | tagged mode d =>
        simp only [streamLoop]
        rw [if_neg hstep]
        split
        · exact ih (sc + 1) (some d) (by omega) (by omega)
        · split
          · rcases ih (sc + 1) fs (by omega) (by omega) with ⟨k, h⟩
            exact ⟨k, by simp only [h]⟩
          · exact ih (sc + 1) fs (by omega) (by omega)
      | plain d =>
        simp only [streamLoop]
        rw [if_neg hstep]
        rcases ih (sc + 1) fs (by omega) (by omega) with ⟨k, h⟩
        exact ⟨k, by simp only [h]⟩

theorem stepNumbers_append (l₁ l₂ : List (EngineEvent α)) :
    stepNumbers (l₁ ++ l₂) = stepNumbers l₁ ++ stepNumbers l₂ := by
  induction l₁ with
  | nil => simp [stepNumbers]
  | cons e rest ih =>
    cases e <;> simp [stepNumbers, ih]

theorem countP_isStep_eq_length (l : List (EngineEvent α)) :
    l.countP isStepEvent = (stepNumbers l).length := by
  induction l with
  | nil => simp [stepNumbers]
  | cons e rest ih =>
    cases e <;> simp [stepNumbers, List.countP_cons, isStepEvent, ih]

theorem isTerminal_eq_false_of_step {e : EngineEvent α}
    (h : isStepEvent e = true) : isTerminalEvent e = false := by
  cases e <;> simp_all [isStepEvent, isTerminalEvent]

theorem isError_eq_false_of_step {e : EngineEvent α}
    (h : isStepEvent e = true) : isErrorEvent e = false := by
  cases e <;> simp_all [isStepEvent, isErrorEvent]

theorem countP_terminal_eq_zero {evs : List (EngineEvent α)}
    (h : ∀ e ∈ evs, isStepEvent e = true) :
    evs.countP isTerminalEvent = 0 := by
  rw [List.countP_eq_zero]
  intro e he
  simp [isTerminal_eq_false_of_step (h e he)]

theorem countP_error_eq_zero {evs : List (EngineEvent α)}
    (h : ∀ e ∈ evs, isStepEvent e = true) :
    evs.countP isErrorEvent = 0 := by
  rw [List.countP_eq_zero]
  intro e he
  simp [isError_eq_false_of_step (h e he)]

theorem countP_terminal_start_append {evs : List (EngineEvent α)}
    (t : EngineEvent α) (hz : evs.countP isTerminalEvent = 0)
    (ht : isTerminalEvent t = true) :
    (EngineEvent.start :: (evs ++ [t])).countP isTerminalEvent = 1 := by
  have hs : isTerminalEvent (EngineEvent.start : EngineEvent α) = false := rfl
  simp [List.countP_cons, List.countP_append, hz, ht, hs]

theorem getLast_start_append (evs : List (EngineEvent α)) (t : EngineEvent α) :
    (EngineEvent.start :: (evs ++ [t])).getLast? = some t := by
  rw [← List.cons_append, List.getLast?_concat]

theorem stepNumbers_executeStream (ms : Nat) (chunks : List (StreamChunk α))
    (stream_exn : Option RaisedExn) (ainvoke : Except RaisedExn α) :
    stepNumbers (executeStream ms chunks stream_exn ainvoke).1 =
      stepNumbers (streamLoop ms chunks 0 none).1 := by
  rcases hsl : streamLoop ms chunks 0 none with ⟨evs, ex⟩
  cases ex with
  | maxSteps k =>
    simp [executeStream, hsl, stepNumbers]
  | finished sc fs =>
    cases stream_exn with
    | some e =>
      cases e with
      | execErrorExn c m => simp [executeStream, hsl, stepNumbers]
      | generic t m =>
        simp [executeStream, hsl, stepNumbers, stepNumbers_append]
    | none =>
      cases fs with
      | some st => simp [executeStream, hsl, stepNumbers, stepNumbers_append]
      | none =>
        cases ainvoke with
        | ok st => simp [executeStream, hsl, stepNumbers, stepNumbers_append]
        | error e =>
          cases e with
          | execErrorExn c m => simp [executeStream, hsl, stepNumbers]
          | generic t m =>
            simp [executeStream, hsl, stepNumbers, stepNumbers_append]

/-! ### Claim theorems for the execution engine -/

/-- C1 (amended): per execution at most one terminal event is ever emitted;
a run aborted by a non-`ExecutionError` exception yields exactly one
terminal event — the matching `error` event — and wraps the exception into
`ExecutionError("EXECUTION_FAILED")` exactly once; but an `ExecutionError`
raised inside the loop (the max-steps breach) is re-raised by
`except ExecutionError: raise` with NO terminal event at all, so on that
path the caller receives zero terminal events, and the exception is not
re-wrapped; a run that finishes normally yields exactly one `complete`. -/
theorem engine_terminal_event_policy (ms : Nat) (chunks : List (StreamChunk α))
    (stream_exn : Option RaisedExn) (ainvoke : Except RaisedExn α) :
    (executeStream ms chunks stream_exn ainvoke).1.countP isTerminalEvent ≤ 1 ∧
    (ms < chunks.length →
      (executeStream ms chunks stream_exn ainvoke).1.countP isTerminalEvent = 0 ∧
      (executeStream ms chunks stream_exn ainvoke).2 =
        .execError "MAX_STEPS_EXCEEDED" (maxStepsMessage ms)) ∧
    (chunks.length ≤ ms → ∀ ty msg, stream_exn = some (.generic ty msg) →
      (executeStream ms chunks stream_exn ainvoke).1.countP isTerminalEvent = 1 ∧
      (executeStream ms chunks stream_exn ainvoke).1.getLast? =
        some (.error chunks.length ty msg) ∧
      (executeStream ms chunks stream_exn ainvoke).2 =
        .execError "EXECUTION_FAILED" msg) ∧
    (chunks.length ≤ ms → stream_exn = none → ∀ st, ainvoke = .ok st →
      (executeStream ms chunks stream_exn ainvoke).1.countP isTerminalEvent = 1 ∧
      (∃ out, (executeStream ms chunks stream_exn ainvoke).1.getLast? =
        some (.complete chunks.length chunks.length (some out))) ∧
      (executeStream ms chunks stream_exn ainvoke).2 = .ok) := by
  have hstep := streamLoop_forall_step ms chunks 0 none
  rcases hsl : streamLoop ms chunks 0 none with ⟨evs, ex⟩
  rw [hsl] at hstep
  have hz : evs.countP isTerminalEvent = 0 := countP_terminal_eq_zero hstep
  have hs : isTerminalEvent (EngineEvent.start : EngineEvent α) = false := rfl
  cases ex with
  | maxSteps k =>
    have hev : executeStream ms chunks stream_exn ainvoke =
        (EngineEvent.start :: evs,
          .execError "MAX_STEPS_EXCEEDED" (maxStepsMessage ms)) := by
      simp [executeStream, hsl]
    have hc0 :
        (executeStream ms chunks stream_exn ainvoke).1.countP isTerminalEvent
          = 0 := by
      rw [hev]
      simp [List.countP_cons, hz, hs]
    refine ⟨by omega, fun _ => ⟨hc0, by rw [hev]⟩, ?_, ?_⟩
    · intro hle ty msg _
      exfalso
      rcases streamLoop_exit_finished ms chunks 0 none (by omega) with ⟨fs', hf⟩
      rw [hsl] at hf
      simp at hf
    · intro hle _ st _
      exfalso
      rcases streamLoop_exit_finished ms chunks 0 none (by omega) with ⟨fs', hf⟩
      rw [hsl] at hf
      simp at hf
  | finished sc fs =>
    have hnotmax : ms < chunks.length → False := by
      intro hlt
      rcases streamLoop_exit_maxSteps ms chunks 0 none (by omega) (by omega)
        with ⟨k, hk⟩
      rw [hsl] at hk
      simp at hk
    have hfin : chunks.length ≤ ms → sc = chunks.length := by
      intro hle
      rcases streamLoop_exit_finished ms chunks 0 none (by omega) with ⟨fs', hf⟩
      rw [hsl] at hf
      simp at hf
      omega
    refine ⟨?_, fun hlt => absurd hlt (fun h => hnotmax h), ?_, ?_⟩
    · cases stream_exn with
      | some e =>
        cases e with
        | execErrorExn c m =>
          have hev : executeStream ms chunks (some (.execErrorExn c m)) ainvoke =
              (EngineEvent.start :: evs, .execError c m) := by
            simp [executeStream, hsl]
          rw [hev]
          simp [List.countP_cons, hz, hs]
        | generic t m =>
          have hev : executeStream ms chunks (some (.generic t m)) ainvoke =
              (EngineEvent.start :: (evs ++ [.error sc t m]),
                .execError "EXECUTION_FAILED" m) := by
            simp [executeStream, hsl]
          rw [hev]
          have h1 := countP_terminal_start_append
            (.error sc t m) hz rfl
          exact le_of_eq h1
      | none =>
        cases fs with
        | some st =>
          have hev : executeStream ms chunks none ainvoke =
              (EngineEvent.start :: (evs ++ [.complete sc sc (some st)]),
                .ok) := by
            simp [executeStream, hsl]
          rw [hev]
          have h1 := countP_terminal_start_append
            (.complete sc sc (some st)) hz rfl
          exact le_of_eq h1
        | none =>
          cases ainvoke with
          | ok st =>
            have hev : executeStream ms chunks none (.ok st) =
                (EngineEvent.start :: (evs ++ [.complete sc sc (some st)]),
                  .ok) := by
              simp [executeStream, hsl]
            rw [hev]
            have h1 := countP_terminal_start_append
              (.complete sc sc (some st)) hz rfl
            exact le_of_eq h1
          | error e =>
            cases e with
            | execErrorExn c m =>
              have hev : executeStream ms chunks none
                    (.error (.execErrorExn c m)) =
                  (EngineEvent.start :: evs, .execError c m) := by
                simp [executeStream, hsl]
              rw [hev]
              simp [List.countP_cons, hz, hs]
            | generic t m =>
              have hev : executeStream ms chunks none (.error (.generic t m)) =
                  (EngineEvent.start :: (evs ++ [.error sc t m]),
                    .execError "EXECUTION_FAILED" m) := by
                simp [executeStream, hsl]
              rw [hev]
              have h1 := countP_terminal_start_append
                (.error sc t m) hz rfl
              exact le_of_eq h1
    · intro hle ty msg hexn
      subst hexn
      have hsc := hfin hle
      subst hsc
      have hev : executeStream ms chunks (some (.generic ty msg)) ainvoke =
          (EngineEvent.start :: (evs ++ [.error chunks.length ty msg]),
            .execError "EXECUTION_FAILED" msg) := by
        simp [executeStream, hsl]
      refine ⟨?_, ?_, ?_⟩
      · rw [hev]
        exact countP_terminal_start_append
          (.error chunks.length ty msg) hz rfl
      · rw [hev]
        exact getLast_start_append evs (.error chunks.length ty msg)
      · rw [hev]
    · intro hle hnone st hok
      subst hnone
      subst hok
      have hsc := hfin hle
      subst hsc
      cases fs with
      | some s =>
        have hev : executeStream ms chunks none (.ok st) =
            (EngineEvent.start ::
              (evs ++ [.complete chunks.length chunks.length (some s)]),
              .ok) := by
          simp [executeStream, hsl]
        refine ⟨?_, ⟨s, ?_⟩, ?_⟩
        · rw [hev]
          exact countP_terminal_start_append
            (.complete chunks.length chunks.length (some s)) hz rfl
        · rw [hev]
          exact getLast_start_append evs
            (.complete chunks.length chunks.length (some s))
        · rw [hev]
      | none =>
        have hev : executeStream ms chunks none (.ok st) =
            (EngineEvent.start ::
              (evs ++ [.complete chunks.length chunks.length (some st)]),
              .ok) := by
          simp [executeStream, hsl]
        refine ⟨?_, ⟨st, ?_⟩, ?_⟩
        · rw [hev]
          exact countP_terminal_start_append
            (.complete chunks.length chunks.length (some st)) hz rfl
        · rw [hev]
          exact getLast_start_append evs
            (.complete chunks.length chunks.length (some st))
        · rw [hev]

/-- C2 (amended): with max steps 3 and a chunk stream of length at least 4
(a tool-calling loop that never stops), execution terminates with
`ExecutionError("MAX_STEPS_EXCEEDED")`; at most 3 `step` events are emitted
and never one numbered beyond 3 (exactly `step` 1, 2, 3 when the first three
chunks are updates-mode chunks); but NO `error` event is emitted — the
`ExecutionError` propagates with no terminal event. -/
theorem engine_max_steps_bound (chunks : List (StreamChunk α))
    (stream_exn : Option RaisedExn) (ainvoke : Except RaisedExn α)
    (h4 : 4 ≤ chunks.length) :
    (executeStream 3 chunks stream_exn ainvoke).2 =
      .execError "MAX_STEPS_EXCEEDED" (maxStepsMessage 3) ∧
    (executeStream 3 chunks stream_exn ainvoke).1.countP isStepEvent ≤ 3 ∧
    (∀ n ∈ stepNumbers (executeStream 3 chunks stream_exn ainvoke).1, n ≤ 3) ∧
    (executeStream 3 chunks stream_exn ainvoke).1.countP isErrorEvent = 0 ∧
    (∀ (d : α) (c : StreamChunk α) (rest : List (StreamChunk α)),
      chunks = .tagged "updates" d :: .tagged "updates" d ::
        .tagged "updates" d :: c :: rest →
      (executeStream 3 chunks stream_exn ainvoke).1 =
        [.start, .step 1 d, .step 2 d, .step 3 d]) := by
  have hlast : ∀ (d : α) (c : StreamChunk α) (rest : List (StreamChunk α)),
      chunks = .tagged "updates" d :: .tagged "updates" d ::
        .tagged "updates" d :: c :: rest →
      (executeStream 3 chunks stream_exn ainvoke).1 =
        [.start, .step 1 d, .step 2 d, .step 3 d] := by
    intro d c rest hc
    subst hc
    rfl
  rcases hmx : streamLoop 3 chunks 0 none with ⟨evs, ex⟩
  have hstep : ∀ e ∈ evs, isStepEvent e = true := by
    have h := streamLoop_forall_step 3 chunks 0 none
    rw [hmx] at h
    exact h
  have hlen : (stepNumbers evs).length ≤ 3 - 0 := by
    have h := streamLoop_nums_length 3 chunks 0 none
    rw [hmx] at h
    exact h
  have hbounds : ∀ n ∈ stepNumbers evs, 0 < n ∧ n ≤ 3 := by
    have h := streamLoop_nums_bounds 3 chunks 0 none
    rw [hmx] at h
    exact h
  rcases streamLoop_exit_maxSteps 3 chunks 0 none (by omega) (by omega)
    with ⟨k, hk⟩
  rw [hmx] at hk
  cases ex with
  | finished sc fs => simp at hk
  | maxSteps kk =>
    have hev1 : (executeStream 3 chunks stream_exn ainvoke).1 =
        EngineEvent.start :: evs := by
      simp [executeStream, hmx]
    have hev2 : (executeStream 3 chunks stream_exn ainvoke).2 =
        .execError "MAX_STEPS_EXCEEDED" (maxStepsMessage 3) := by
      simp [executeStream, hmx]
    refine ⟨hev2, ?_, ?_, ?_, hlast⟩
    · rw [hev1]
      have he : (EngineEvent.start :: evs).countP isStepEvent =
          (stepNumbers (EngineEvent.start :: evs)).length :=
        countP_isStep_eq_length _
      have he2 : stepNumbers (EngineEvent.start :: evs) = stepNumbers evs := rfl
      rw [he, he2]
      omega
    · rw [hev1]
      intro n hn
      have hn' : n ∈ stepNumbers evs := hn
      exact (hbounds n hn').2
    · rw [hev1]
      have hse : isErrorEvent (EngineEvent.start : EngineEvent α) = false := rfl
      simp [List.countP_cons, countP_error_eq_zero hstep, hse]

/-- C7 (amended): within one execution the `step_number` values on emitted
`step` events are strictly increasing and all at least 1; the first `step`
event is numbered 1 exactly when the first streamed chunk is an updates-mode
chunk — the counter counts every chunk (`values`-mode chunks included), so a
`values` chunk arriving first makes the first `step` event carry number 2. -/
theorem engine_step_numbers (ms : Nat) (chunks : List (StreamChunk α))
    (stream_exn : Option RaisedExn) (ainvoke : Except RaisedExn α) :
    List.Pairwise (· < ·)
      (stepNumbers (executeStream ms chunks stream_exn ainvoke).1) ∧
    (∀ n ∈ stepNumbers (executeStream ms chunks stream_exn ainvoke).1,
      1 ≤ n) ∧
    (∀ (d : α) (rest : List (StreamChunk α)),
      chunks = .tagged "updates" d :: rest → 1 ≤ ms →
      (stepNumbers (executeStream ms chunks stream_exn ainvoke).1).head? =
        some 1) := by
  refine ⟨?_, ?_, ?_⟩
  · rw [stepNumbers_executeStream]
    exact streamLoop_nums_pairwise ms chunks 0 none
  · rw [stepNumbers_executeStream]
    intro n hn
    exact (streamLoop_nums_bounds ms chunks 0 none n hn).1
  · intro d rest hc hms
    subst hc
    rw [stepNumbers_executeStream]
    simp only [streamLoop]
    rw [if_neg (show ¬ (0 + 1 > ms) by omega)]
    rw [if_neg (show ¬ (("updates" : String) = "values") by decide)]
    rw [if_pos trivial]
    rfl

/-- C9 (amended): an input whose first model turn requests no tool calls
executes the `agent` super-step once; under the streaming path (default
max steps 100) the stream is the leading `values` chunk (input state), the
super-step's `updates` chunk and its `values` chunk, so execution yields
`start`, ONE `step` event numbered 2 (the leading `values` chunk is counted
but yields no event), then `complete` with `steps_completed = 3` (the chunk
count); only the non-streaming path (`stream=False`) yields exactly `start`
then `complete`, with `steps_completed = 1`. -/
theorem engine_no_tool_path_events :
    (∀ (i d st : α) (ainvoke : Except RaisedExn α),
      executeStream 100 (noToolChunks i d st) none ainvoke =
        ([.start, .step 2 d, .complete 3 3 (some st)], .ok)) ∧
    (∀ st : α, executeNoStream (.ok st) =
      ([.start, .complete 1 1 (some st)], .ok)) := by
  exact ⟨fun i d st ainvoke => rfl, fun st => rfl⟩

/-- C1 counterexample: with max steps 2, a stream of three updates chunks
is aborted by `ExecutionError("MAX_STEPS_EXCEEDED")` after zero terminal
events — the caller gets neither a `complete` nor an `error` event, and the
escaping exception was not wrapped after a matching `error` event, contrary
to the claim that exactly one terminal event is always received. -/
theorem engine_terminal_event_counterexample :
    executeStream 2
        [StreamChunk.tagged "updates" (0 : Nat), .tagged "updates" 0,
         .tagged "updates" 0] none (.ok 0) =
      ([.start, .step 1 0, .step 2 0],
        .execError "MAX_STEPS_EXCEEDED" (maxStepsMessage 2)) ∧
    (executeStream 2
        [StreamChunk.tagged "updates" (0 : Nat), .tagged "updates" 0,
         .tagged "updates" 0] none (.ok 0)).1.countP isTerminalEvent = 0 :=
  ⟨rfl, rfl⟩

/-- C2 counterexample: with max steps 3 and four updates chunks, execution
emits `step` 1, 2, 3 and raises `ExecutionError("MAX_STEPS_EXCEEDED")`, but
the claimed trailing `error` event is never emitted (`except ExecutionError:
raise` re-raises before the error-event branch is reached). -/
theorem engine_max_steps_counterexample :
    executeStream 3
        [StreamChunk.tagged "updates" (0 : Nat), .tagged "updates" 0,
         .tagged "updates" 0, .tagged "updates" 0] none (.ok 0) =
      ([.start, .step 1 0, .step 2 0, .step 3 0],
        .execError "MAX_STEPS_EXCEEDED" (maxStepsMessage 3)) ∧
    (executeStream 3
        [StreamChunk.tagged "updates" (0 : Nat), .tagged "updates" 0,
         .tagged "updates" 0, .tagged "updates" 0] none
        (.ok 0)).1.countP isErrorEvent = 0 :=
  ⟨rfl, rfl⟩

/-- C7 counterexample: when a `values`-mode chunk precedes the first
updates-mode chunk (LangGraph's values mode emits the input state first),
the first emitted `step` event carries `step_number` 2, not 1: the counter
is incremented for the `values` chunk as well. -/
theorem engine_step_number_counterexample :
    stepNumbers (executeStream 100
        [StreamChunk.tagged "values" (5 : Nat), .tagged "updates" 7]
        none (.ok 0)).1 = [2] ∧ (2 : Nat) ≠ 1 :=
  ⟨rfl, by decide⟩

/-- C9 counterexample: on the streaming path a no-tool-call run does NOT
yield just `start` then `complete`: a `step` event (for the agent
super-step's updates chunk) sits between them, and `steps_completed` is 3
(the leading input-state `values` chunk, the `updates` chunk and the final
`values` chunk are all counted) — neither 0 nor 1. -/
theorem engine_no_tool_counterexample :
    executeStream 100 (noToolChunks (7 : Nat) 3 4) none (.ok 0) =
      ([.start, .step 2 3, .complete 3 3 (some 4)], .ok) ∧
    (executeStream 100 (noToolChunks (7 : Nat) 3 4) none
      (.ok 0)).1.countP isStepEvent = 1 ∧
    ((3 : Nat) ≠ 0 ∧ (3 : Nat) ≠ 1) :=
  ⟨rfl, rfl, by decide⟩

/-- Witness for C1's amended theorem: a one-chunk stream followed by a
generic `ValueError` yields exactly one terminal event and the
`EXECUTION_FAILED` wrap. -/
theorem engine_terminal_event_policy_witness :
    (executeStream 5 [StreamChunk.tagged "updates" (0 : Nat)]
        (some (.generic "ValueError" "boom")) (.ok 0)).1.countP
      isTerminalEvent = 1 ∧
    (executeStream 5 [StreamChunk.tagged "updates" (0 : Nat)]
        (some (.generic "ValueError" "boom")) (.ok 0)).2 =
      .execError "EXECUTION_FAILED" "boom" :=
  ⟨((engine_terminal_event_policy 5 [StreamChunk.tagged "updates" (0 : Nat)]
      (some (.generic "ValueError" "boom")) (.ok 0)).2.2.1 (by decide)
      "ValueError" "boom" rfl).1,
   ((engine_terminal_event_policy 5 [StreamChunk.tagged "updates" (0 : Nat)]
      (some (.generic "ValueError" "boom")) (.ok 0)).2.2.1 (by decide)
      "ValueError" "boom" rfl).2.2⟩

/-- Witness for C2's amended theorem at a concrete four-chunk stream. -/
theorem engine_max_steps_bound_witness :
    (executeStream 3 [StreamChunk.tagged "updates" (1 : Nat),
        .tagged "updates" 1, .tagged "updates" 1, .tagged "updates" 1]
        none (.ok 0)).2 =
      .execError "MAX_STEPS_EXCEEDED" (maxStepsMessage 3) :=
  (engine_max_steps_bound [StreamChunk.tagged "updates" (1 : Nat),
    .tagged "updates" 1, .tagged "updates" 1, .tagged "updates" 1]
    none (.ok 0) (by decide)).1

/-- Witness for C7's amended theorem: with an updates chunk first, the
first step event is numbered 1. -/
theorem engine_step_numbers_witness :
    (stepNumbers (executeStream 100 [StreamChunk.tagged "updates" (0 : Nat)]
      none (.ok 0)).1).head? = some 1 :=
  (engine_step_numbers 100 [StreamChunk.tagged "updates" (0 : Nat)]
    none (.ok 0)).2.2 0 [] rfl (by decide)

/-! ### Claim theorems for the gateway, registry, injector and transports -/

/-- C3 (amended): `MCPGateway.connection` fails with `ServerNotFoundError`
exactly when the server id is absent from the gateway's raw server map — the
`enabled` flag is never consulted, so a present-but-disabled server is
resolved and the connection proceeds; only `MCPServerRegistry.get` (which
`connection` does not use) makes disabled servers indistinguishable from
absent ones. -/
theorem gateway_connection_not_found_policy (g : MCPGateway)
    (server_id : String) :
    (MCPGateway.connection_resolve g server_id =
        .serverNotFound server_id ↔
      alookup g.registry.servers server_id = none) ∧
    (∀ c, alookup g.registry.servers server_id = some c →
      (c.transport = "stdio" ∨ c.transport = "streamable_http" ∨
        c.transport = "sse") →
      MCPGateway.connection_resolve g server_id = .proceed c) ∧
    (∀ c, MCPServerRegistry.get g.registry server_id = some c ↔
      (alookup g.registry.servers server_id = some c ∧
        c.enabled = true)) := by
  refine ⟨?_, ?_, ?_⟩
  · cases h : alookup g.registry.servers server_id with
    | none => simp [MCPGateway.connection_resolve, h]
    | some c =>
      simp only [MCPGateway.connection_resolve, h]
      split_ifs <;> simp
  · intro c hc htrans
    simp only [MCPGateway.connection_resolve, hc]
    rcases htrans with h | h | h <;> simp [h]
  · intro c
    cases h : alookup g.registry.servers server_id with
    | none => simp [MCPServerRegistry.get, h]
    | some c' =>
      simp only [MCPServerRegistry.get, h]
      by_cases he : c'.enabled = true
      · rw [if_pos he]
        constructor
        · intro heq
          obtain rfl : c' = c := Option.some.inj heq
          exact ⟨rfl, he⟩
        · intro hh
          exact hh.1
      · rw [if_neg he]
        constructor
        · intro heq
          exact absurd heq (by simp)
        · rintro ⟨heq, hen⟩
          obtain rfl : c' = c := Option.some.inj heq
          exact absurd hen he

/-- C3 counterexample: `google_drive` is registered with `enabled=False`,
yet `connection` resolves it and proceeds rather than failing with
`ServerNotFoundError`; `MCPServerRegistry.get` hides it, but `connection`
reads the raw `servers` dict, not `registry.get`.  A truly absent id does
fail with `ServerNotFoundError`. -/
theorem gateway_disabled_server_counterexample :
    MCPGateway.connection_resolve ⟨defaultRegistry⟩ "google_drive" =
      .proceed googleDriveConfig ∧
    googleDriveConfig.enabled = false ∧
    MCPServerRegistry.get defaultRegistry "google_drive" = none ∧
    MCPGateway.connection_resolve ⟨defaultRegistry⟩ "absent_server" =
      .serverNotFound "absent_server" :=
  ⟨rfl, rfl, rfl, rfl⟩

/-- Witness for C3's amended theorem: the disabled `google_drive` entry is
resolved by `connection` (no `ServerNotFoundError`). -/
theorem gateway_connection_not_found_policy_witness :
    MCPGateway.connection_resolve ⟨defaultRegistry⟩ "google_drive" =
      .proceed googleDriveConfig :=
  (gateway_connection_not_found_policy ⟨defaultRegistry⟩ "google_drive").2.1
    googleDriveConfig rfl (Or.inr (Or.inl rfl))

/-- C10: `MCPGateway.get_servers_available_to_user` filters only by
credential type and ignores the `enabled` flag, while
`MCPServerRegistry.list_available` additionally excludes disabled servers:
the registry listing is exactly the gateway listing filtered by `enabled`,
and the two differ exactly on the disabled servers whose credential
requirement is met. -/
theorem availability_listings_differ_only_on_disabled (g : MCPGateway)
    (creds : List String) :
    MCPServerRegistry.list_available g.registry creds =
      (MCPGateway.get_servers_available_to_user g creds).filter
        (fun s => s.enabled) ∧
    (∀ s : MCPServerConfig,
      (s ∈ MCPGateway.get_servers_available_to_user g creds ∧
        s ∉ MCPServerRegistry.list_available g.registry creds) ↔
      (s ∈ g.registry.servers.map Prod.snd ∧
        credentialOk creds s = true ∧ s.enabled = false)) := by
  constructor
  · rw [MCPServerRegistry.list_available,
      MCPGateway.get_servers_available_to_user, List.filter_filter]
  · intro s
    simp only [MCPGateway.get_servers_available_to_user,
      MCPServerRegistry.list_available, List.mem_filter]
    constructor
    · rintro ⟨⟨hmem, hcred⟩, hnot⟩
      cases hb : s.enabled with
      | false => exact ⟨hmem, hcred, rfl⟩
      | true =>
        exact absurd ⟨hmem, by rw [Bool.and_eq_true]; exact ⟨hb, hcred⟩⟩ hnot
    · rintro ⟨hmem, hcred, hen⟩
      refine ⟨⟨hmem, hcred⟩, ?_⟩
      rintro ⟨_, hboth⟩
      rw [Bool.and_eq_true] at hboth
      rw [hen] at hboth
      exact Bool.false_ne_true hboth.1

/-- C5: `CredentialInjector.prepare` returns an empty `InjectedCredentials`
for every credential (including none) when the server requires no
credential, and raises `CredentialInjectionError` when the server requires
one and none is supplied. -/
theorem prepare_credential_requirement :
    (∀ (sc : MCPServerConfig) (cred : Option CredentialDecrypted),
      sc.credential_type = none →
      prepare sc cred = .ok ⟨[], [], []⟩) ∧
    (∀ (sc : MCPServerConfig) (ct : String),
      sc.credential_type = some ct →
      prepare sc none = .error (.credentialRequired sc.id ct)) := by
  constructor
  · intro sc cred h
    simp [prepare, h]
  · intro sc ct h
    simp [prepare, h]

/-- Witness for C5: the `filesystem` server (no credential required) with an
irrelevant credential, and the `github` server with a missing credential. -/
theorem prepare_credential_requirement_witness :
    prepare filesystemConfig
        (some ⟨"github_token", [("token", "X")]⟩) = .ok ⟨[], [], []⟩ ∧
    prepare githubConfig none =
      .error (.credentialRequired "github" "github_token") :=
  ⟨prepare_credential_requirement.1 filesystemConfig
      (some ⟨"github_token", [("token", "X")]⟩) rfl,
   prepare_credential_requirement.2 githubConfig "github_token" rfl⟩

/-- C6 (amended): for a credential whose type's strategy is bearer-header
injection from the field `"token"` holding a NONEMPTY value `v`, `prepare`
yields headers `Authorization: Bearer v` with empty params and env; and a
type with no strategy-table entry falls back to exactly that
bearer/`"token"` strategy.  The nonemptiness proviso is forced by the
counterexample: `if not token` treats an empty string as missing. -/
theorem prepare_bearer_token_field (sc : MCPServerConfig) (r ct v : String)
    (d : List (String × String))
    (hreq : sc.credential_type = some r)
    (hm : (strategyFor ct).method = "bearer")
    (hf : (strategyFor ct).token_field = "token")
    (hv : alookup d "token" = some v) (hne : v ≠ "") :
    prepare sc (some ⟨ct, d⟩) =
      .ok ⟨[("Authorization", "Bearer " ++ v)], [], []⟩ ∧
    (∀ ct', alookup CREDENTIAL_STRATEGIES ct' = none →
      strategyFor ct' = defaultStrategy ∧
      defaultStrategy = { method := "bearer", token_field := "token" }) := by
  constructor
  · simp [prepare, hreq, hf, hv, hm, hne]
  · intro ct' h
    exact ⟨by simp [strategyFor, h], rfl⟩

/-- C6 counterexample: the claim quantifies over every value `X` of the
`"token"` field, but for the empty string `prepare` raises
`CredentialInjectionError("Missing required field")` instead of yielding
`Authorization: Bearer `, because `if not token` treats a falsy (empty)
string as absent. -/
theorem prepare_empty_token_counterexample :
    prepare githubConfig (some ⟨"github_token", [("token", "")]⟩) =
      .error (.missingField "token") ∧
    prepare githubConfig (some ⟨"github_token", [("token", "")]⟩) ≠
      .ok ⟨[("Authorization", "Bearer " ++ "")], [], []⟩ :=
  ⟨rfl, fun h => Except.noConfusion h⟩

/-- Witness for C6's amended theorem: `github_token` is mapped to bearer
with field `"token"`; value `"X"` yields the bearer header. -/
theorem prepare_bearer_token_field_witness :
    prepare githubConfig (some ⟨"github_token", [("token", "X")]⟩) =
      .ok ⟨[("Authorization", "Bearer X")], [], []⟩ :=
  (prepare_bearer_token_field githubConfig "github_token" "github_token" "X"
    [("token", "X")] rfl rfl rfl rfl (by decide)).1

/-- C4 (amended): the gateway never calls `CredentialInjector.prepare`; the
auth material it actually applies is its own hard-coded key-based mapping
over the raw credential-data dict (`access_token`/`token` ↦ bearer header,
`api_key` ↦ `X-API-Key` for HTTP; same minus `api_key` for SSE; env
variables for stdio).  It coincides with the Injector's output exactly on
the bearer cases: a credential whose type's strategy is bearer over
`access_token` or `token`, whose data is that single nonempty field. -/
theorem gateway_injector_bearer_agreement (sc : MCPServerConfig)
    (r ct v : String)
    (hreq : sc.credential_type = some r)
    (hm : (strategyFor ct).method = "bearer")
    (hf : (strategyFor ct).token_field = "access_token" ∨
      (strategyFor ct).token_field = "token")
    (hne : v ≠ "") :
    prepare sc (some ⟨ct, [((strategyFor ct).token_field, v)]⟩) =
      .ok ⟨httpConnectionHeaders
        (some [((strategyFor ct).token_field, v)]), [], []⟩ ∧
    sseConnectionHeaders (some [((strategyFor ct).token_field, v)]) =
      httpConnectionHeaders (some [((strategyFor ct).token_field, v)]) := by
  rcases hf with hf | hf
  · rw [hf]
    refine ⟨?_, ?_⟩
    · simp [prepare, hreq, hm, hf, hne, httpConnectionHeaders, alookup]
    · simp [sseConnectionHeaders, httpConnectionHeaders, alookup]
  · rw [hf]
    refine ⟨?_, ?_⟩
    · simp [prepare, hreq, hm, hf, hne, httpConnectionHeaders, alookup]
    · simp [sseConnectionHeaders, httpConnectionHeaders, alookup]

/-- C4 counterexample: for a `weather_api_key` credential the strategy table
prescribes query-parameter injection (`appid`), but the gateway's HTTP
connection applies an `X-API-Key` header and never applies query
parameters: the applied material differs from `prepare`'s output in both
headers and params. -/
theorem gateway_injector_divergence_counterexample :
    prepare githubConfig
        (some ⟨"weather_api_key", [("api_key", "K")]⟩) =
      .ok ⟨[], [("appid", "K")], []⟩ ∧
    httpConnectionHeaders (some [("api_key", "K")]) = [("X-API-Key", "K")] ∧
    ([("X-API-Key", "K")] : List (String × String)) ≠ [] ∧
    ([] : List (String × String)) ≠ [("appid", "K")] :=
  ⟨rfl, rfl, by decide, by decide⟩

/-- Witness for C4's amended theorem: a `slack_oauth` credential (bearer
over `access_token`) produces identical material on both paths. -/
theorem gateway_injector_bearer_agreement_witness :
    prepare slackConfig
        (some ⟨"slack_oauth", [("access_token", "A")]⟩) =
      .ok ⟨httpConnectionHeaders (some [("access_token", "A")]), [], []⟩ :=
  (gateway_injector_bearer_agreement slackConfig "slack_oauth" "slack_oauth"
    "A" rfl rfl (Or.inl rfl) (by decide)).1

/-- C8: `disconnect` is idempotent on every transport: a second `disconnect`
on the same instance leaves the state exactly as after the first (and, with
the process/client handle operations modelled total per their documented
best-effort semantics, no exception is raised). -/
theorem transport_disconnect_idempotent :
    (∀ t : StdioTransport, t.disconnect.disconnect = t.disconnect) ∧
    (∀ t : StreamableHttpTransport, t.disconnect.disconnect = t.disconnect) ∧
    (∀ t : SSETransport, t.disconnect.disconnect = t.disconnect) := by
  refine ⟨?_, ?_, ?_⟩
  · intro t
    cases h : t.process with
    | none => simp [StdioTransport.disconnect, h]
    | some p =>
      simp [StdioTransport.disconnect, h, ProcHandle.terminateWait]
  · intro t
    cases h : t.client with
    | none => simp [StreamableHttpTransport.disconnect, h]
    | some c =>
      simp [StreamableHttpTransport.disconnect, h, ClientHandle.aclose]
  · intro t
    cases h : t.client with
    | none => simp [SSETransport.disconnect, h]
    | some c =>
      simp [SSETransport.disconnect, h, ClientHandle.aclose]

/-- Witness for C9's theorem at a concrete no-tool run. -/
theorem engine_no_tool_path_events_witness :
    executeStream 100 (noToolChunks (1 : Nat) 2 5) none (.ok 0) =
      ([.start, .step 2 2, .complete 3 3 (some 5)], .ok) :=
  engine_no_tool_path_events.1 1 2 5 (.ok 0)

/-- Witness for C8's theorem at a concrete connected stdio transport. -/
theorem transport_disconnect_idempotent_witness :
    StdioTransport.disconnect (StdioTransport.disconnect
      ⟨"npx", [], none, 30, some ⟨true⟩, true⟩) =
    StdioTransport.disconnect ⟨"npx", [], none, 30, some ⟨true⟩, true⟩ :=
  transport_disconnect_idempotent.1 ⟨"npx", [], none, 30, some ⟨true⟩, true⟩

/-- Witness for C10's theorem on the default registry with a Slack
credential. -/
theorem availability_listings_witness :
    MCPServerRegistry.list_available defaultRegistry ["slack_oauth"] =
      (MCPGateway.get_servers_available_to_user ⟨defaultRegistry⟩
        ["slack_oauth"]).filter (fun s => s.enabled) :=
  (availability_listings_differ_only_on_disabled ⟨defaultRegistry⟩
    ["slack_oauth"]).1

end KKExec
